import Mathlib

/-!
Verification of the spacedesk protocol client (`spacedesk_protocol.py`):
packet building, header parsing, the partial-read reassembly routine
`receive_size`, and the streaming receive/dispatch loop, shallowly embedded
over a byte-stream model of the TCP socket.
-/

set_option maxRecDepth 40000

namespace Spacedesk

/-! ## Byte-level helpers -/

/-- Little-endian byte encoding of `v` on `w` bytes, as Python's
`v.to_bytes(w, byteorder="little")` (bytes taken mod 256; the Python call
raises `OverflowError` when `v ≥ 256 ^ w`, which theorems exclude by
hypothesis). -/
def toLEBytes : Nat → Nat → List Nat
  | 0, _ => []
  | w + 1, v => v % 256 :: toLEBytes w (v / 256)

/-- Little-endian byte decoding, as Python's
`int.from_bytes(data, byteorder="little")`. -/
def fromLEBytes : List Nat → Nat
  | [] => 0
  | b :: rest => b + 256 * fromLEBytes rest

/-- Python `bytearray` slice assignment `l[a:b] = d` for `0 ≤ a ≤ b`: the
slice is replaced by `d`, and the result grows when `d` is longer than the
slice (in particular a write past the end appends). -/
def setSlice (l : List Nat) (a b : Nat) (d : List Nat) : List Nat :=
  l.take a ++ d ++ l.drop b

/-- The little-endian value stored at byte offsets `[off, off+len)` of `b`. -/
def field (b : List Nat) (off len : Nat) : Nat :=
  fromLEBytes ((b.drop off).take len)

/-! ## Packet types (`PacketType` enum of the source) -/

/-- `class PacketType(enum.IntEnum)`. -/
inductive PacketType where
  | connectionStart
  | ping
  | videoData
  | videoDataAck
  | disconnect
  deriving DecidableEq

/-- The wire value of each `PacketType` member. -/
def PacketType.val : PacketType → Nat
  | .connectionStart => 0
  | .ping => 1
  | .videoData => 2
  | .videoDataAck => 7
  | .disconnect => 8

/-- `PacketType(val)`: `some` on a member value, `none` when the Python
constructor would raise `ValueError`. -/
def PacketType.ofVal (v : Nat) : Option PacketType :=
  if v = 0 then some .connectionStart
  else if v = 1 then some .ping
  else if v = 2 then some .videoData
  else if v = 7 then some .videoDataAck
  else if v = 8 then some .disconnect
  else none

/-- Result of `get_packet_type`: a recognized `PacketType` member, or the raw
integer returned verbatim for unknown values. -/
inductive PacketTypeOrRaw where
  | known (t : PacketType)
  | raw (v : Nat)
  deriving DecidableEq

/-! ## Header parsing (`get_packet_type`, `get_payload_size`) -/

/-- `get_packet_type(data)`: raises `ValueError` (here `none`) when fewer
than 4 bytes are supplied; otherwise decodes bytes 0–4 little-endian and
returns the enum member, falling back to the raw integer. -/
def get_packet_type (data : List Nat) : Option PacketTypeOrRaw :=
  if data.length < 4 then none
  else
    let v := fromLEBytes (data.take 4)
    match PacketType.ofVal v with
    | some t => some (.known t)
    | none => some (.raw v)

/-- `get_payload_size(data)`: raises `ValueError` (here `none`) when fewer
than 8 bytes are supplied; otherwise decodes bytes 4–8 little-endian. -/
def get_payload_size (data : List Nat) : Option Nat :=
  if data.length < 8 then none
  else some (fromLEBytes ((data.drop 4).take 4))

/-- The spec's `parseHeader(bytes) -> {type, payloadSize}`: both header
fields, failing when either underlying accessor raises. -/
def parseHeader (data : List Nat) : Option (PacketTypeOrRaw × Nat) :=
  match get_packet_type data, get_payload_size data with
  | some t, some s => some (t, s)
  | _, _ => none

/-! ## Outbound packet builders -/

/-- `Packet.PACKET_SIZE`. -/
def PACKET_SIZE : Nat := 128

/-- `VideoDataAckPacket().get_bytes()`: 128 zero bytes with the type field
set to `VIDEO_DATA_ACK`. -/
def videoDataAckBytes : List Nat :=
  setSlice (List.replicate PACKET_SIZE 0) 0 4 (toLEBytes 4 PacketType.videoDataAck.val)

/-- `DisconnectPacket().get_bytes()`: 128 zero bytes with the type field set
to `DISCONNECT`. -/
def disconnectBytes : List Nat :=
  setSlice (List.replicate PACKET_SIZE 0) 0 4 (toLEBytes 4 PacketType.disconnect.val)

/-- `ConnectionStartPacket.PAYLOAD_SIZE`. -/
def PAYLOAD_SIZE : Nat := 334

/-- The 128-byte header built by `ConnectionStartPacket.__init__`, one
`setSlice` per `self.msg[a:b] = v.to_bytes(...)` statement of the source. -/
def connectionStartMsg (width height quality : Nat) : List Nat :=
  setSlice (setSlice (setSlice (setSlice (setSlice (setSlice (setSlice
  (setSlice (setSlice (setSlice (setSlice (setSlice (setSlice (setSlice
  (setSlice (setSlice (setSlice (setSlice
    (List.replicate PACKET_SIZE 0)
    0 4 (toLEBytes 4 PacketType.connectionStart.val))
    4 8 (toLEBytes 4 PAYLOAD_SIZE))
    8 12 (toLEBytes 4 4))
    12 16 (toLEBytes 4 8))
    16 20 (toLEBytes 4 0))
    20 24 (toLEBytes 4 1))
    24 28 (toLEBytes 4 3))
    28 32 (toLEBytes 4 2))
    32 36 (toLEBytes 4 quality))
    36 38 (toLEBytes 2 4))
    38 40 (toLEBytes 2 1))
    40 44 (toLEBytes 4 0))
    44 46 (toLEBytes 2 60))
    46 48 (toLEBytes 2 4))
    48 52 (toLEBytes 4 1))
    52 56 (toLEBytes 4 width))
    88 92 (toLEBytes 4 height))
    124 128 (toLEBytes 4 0)

/-- One character of the identification string: `ord(c).to_bytes(2, "little")`,
`none` when the Python call would raise `OverflowError` (code point ≥ 2^16). -/
def encodeChar (c : Nat) : Option (List Nat) :=
  if c < 65536 then some (toLEBytes 2 c) else none

/-- The loop `for i in range(len(identification_str)):
`self.payload[i*2:(i+1)*2] = ord(...).to_bytes(2, "little")`, writing
character `i` of the remaining code points `cps` into `payload`. -/
def payloadWrite (payload : List Nat) (i : Nat) (cps : List Nat) : Option (List Nat) :=
  match cps with
  | [] => some payload
  | c :: rest =>
    match encodeChar c with
    | none => none
    | some bs => payloadWrite (setSlice payload (i * 2) ((i + 1) * 2) bs) (i + 1) rest

/-- `self.payload`: starts as `bytearray(334)` and receives the encoded
identification string, two bytes per character. -/
def connectionStartPayload (cps : List Nat) : Option (List Nat) :=
  payloadWrite (List.replicate PAYLOAD_SIZE 0) 0 cps

/-- The code points of `f"{{{uuid.hex}}} {hostname}"`: `'{'`, the 32 hex
digits of the MD5-derived UUID, `'}'`, a space, then the hostname.  The UUID
hex digits are a parameter here: the MD5 digest comes from the external
`hashlib`/`uuid` libraries and only its length (32 hex characters) matters
to the claims. -/
def identificationCodepoints (uuidHex hostname : List Nat) : List Nat :=
  123 :: (uuidHex ++ 125 :: 32 :: hostname)

/-- `ConnectionStartPacket(...).get_bytes()`: a fresh `bytearray(462)` whose
slice `[0:128]` is assigned the header and whose slice `[128:462]` is
assigned the payload (Python slice assignment, so an oversized payload grows
the result). -/
def connectionStartGetBytes (width height quality : Nat) (cps : List Nat) :
    Option (List Nat) :=
  (connectionStartPayload cps).map fun p =>
    setSlice (setSlice (List.replicate (PACKET_SIZE + PAYLOAD_SIZE) 0)
      0 PACKET_SIZE (connectionStartMsg width height quality))
      PACKET_SIZE (PACKET_SIZE + PAYLOAD_SIZE) p

/-! ## Socket stream model

The inbound TCP byte stream is modelled as the list of data chunks the
kernel will hand to successive `recv` calls: `recv(n)` returns the head
chunk, truncated to `n` bytes (the remainder stays queued).  An exhausted
stream models a peer that closed the connection after sending everything:
`recv` then returns the empty read Python reports for a closed socket.
Quantifying over all segmentations captures every way the network may
partition the bytes. -/

/-- Pending inbound data, as the chunks successive reads will return. -/
abbrev SockState := List (List Nat)

/-- All queued chunks are nonempty (an empty chunk never arrives; the empty
read arises only from exhaustion, i.e. closure). -/
def WfSock (st : SockState) : Prop := ∀ s ∈ st, s ≠ []

instance (st : SockState) : Decidable (WfSock st) := by
  unfold WfSock; infer_instance

/-- `sock.recv(req)`: the head chunk, truncated to `req` bytes; the empty
read on an exhausted (closed) stream. -/
def recv (req : Nat) : SockState → List Nat × SockState
  | [] => ([], [])
  | s :: rest =>
    if s.length ≤ req then (s, rest) else (s.take req, s.drop req :: rest)

/-- Spec-level remainder: the stream after `n` bytes have been consumed,
keeping the tail of a partially consumed chunk queued. -/
def dropStream (n : Nat) : SockState → SockState
  | [] => []
  | s :: rest => if s.length ≤ n then dropStream (n - s.length) rest else s.drop n :: rest

/-- The `while len(received) < size` loop of `Streamer.receive_size`:
accumulates reads of `size - len(received)` bytes, raising
`ConnectionError` (here `none`) on an empty read. -/
def receiveSizeGo (size : Nat) (acc : List Nat) (st : SockState) :
    Option (List Nat × SockState) :=
  if h : acc.length < size then
    let p := recv (size - acc.length) st
    if hc : p.1 = [] then none
    else receiveSizeGo size (acc ++ p.1) p.2
  else some (acc, st)
termination_by size - acc.length
decreasing_by
  have hp : recv (size - acc.length) st = p := rfl
  rw [hp]
  simp only [List.length_append]
  have : 0 < p.1.length := List.length_pos.mpr hc
  omega

/-- `Streamer.receive_size(size)`: exactly `size` bytes off the socket, or
`ConnectionError` when the peer closes first (partially accumulated bytes
are discarded with the exception). -/
def receive_size (size : Nat) (st : SockState) : Option (List Nat × SockState) :=
  receiveSizeGo size [] st

/-! ## The streaming receive/dispatch loop (`Streamer.run`) -/

/-- Observable side effects of the loop body: `sendall` on the socket,
a `video_data_signal.emit`, a log line, or a socket close (never performed
by this code, but needed to state claims about closing). -/
inductive Action where
  | send (data : List Nat)
  | emit (chunk : List Nat)
  | logMsg
  | closeSock
  deriving DecidableEq

/-- Exceptions that escape the loop body. -/
inductive StreamErr where
  | connectionLost
  | valueError
  deriving DecidableEq

/-- The header read of one loop iteration: `received = self.sock.recv(Packet.PACKET_SIZE)`. -/
def headerRead (st : SockState) : List Nat :=
  (recv PACKET_SIZE st).1

/-- One iteration of the `while self.running` loop of `Streamer.run`, taken
when the socket is readable: `recv(128)`, the empty-read check (log and
`continue`), then dispatch on `get_packet_type`.  `.error` marks an
exception propagating out of `run` (it aborts the iteration before any
later effect). -/
def step (st : SockState) : Except StreamErr (SockState × List Action) :=
  let r := recv PACKET_SIZE st
  if r.1 = [] then .ok (r.2, [.logMsg])
  else
    match get_packet_type r.1 with
    | none => .error .valueError
    | some (.known .ping) => .ok (r.2, [.send r.1])
    | some (.known .connectionStart) => .ok (r.2, [.logMsg])
    | some (.known .videoData) =>
      match get_payload_size r.1 with
      | none => .error .valueError
      | some size =>
        match receive_size size r.2 with
        | none => .error .connectionLost
        | some (payload, st2) => .ok (st2, [.emit payload, .send videoDataAckBytes])
    | some _ => .ok (r.2, [.logMsg])

/-- `fuel` readable iterations of the streaming loop, collecting the actions
performed, and the exception that ended the session if one escaped. -/
def runLoop (fuel : Nat) (st : SockState) : List Action × Option StreamErr :=
  match fuel with
  | 0 => ([], none)
  | fuel + 1 =>
    match step st with
    | .error e => ([], some e)
    | .ok (st2, acts) =>
      let rest := runLoop fuel st2
      (acts ++ rest.1, rest.2)

/-- `Streamer.stop`: sets `self.running = False`, logs, and sends one
`DisconnectPacket`; takes the previous value of the running flag and
returns the new flag value with the actions performed. -/
def stopEffect (running : Bool) : Bool × List Action :=
  (false, [.logMsg, .send disconnectBytes])

/-- A 128-byte header whose type field decodes to `VIDEO_DATA` and whose
payload-size field decodes to `n`. -/
def isVideoHeader (hdr : List Nat) (n : Nat) : Prop :=
  hdr.length = PACKET_SIZE ∧ fromLEBytes (hdr.take 4) = PacketType.videoData.val ∧
    fromLEBytes ((hdr.drop 4).take 4) = n

instance (hdr : List Nat) (n : Nat) : Decidable (isVideoHeader hdr n) := by
  unfold isVideoHeader; infer_instance

/-- An inbound stream consisting of the `VIDEO_DATA` messages with payloads
`ms`, each arriving as one 128-byte header chunk followed by an arbitrary
segmentation of its fully delivered payload. -/
inductive VideoStream : List (List Nat) → SockState → Prop where
  | nil : VideoStream [] []
  | cons (hdr : List Nat) (p : List Nat) (segs : SockState) (ms : List (List Nat))
      (rest : SockState) (hh : isVideoHeader hdr p.length)
      (hj : segs.flatten = p) (hw : WfSock segs) (htl : VideoStream ms rest) :
      VideoStream (p :: ms) (hdr :: (segs ++ rest))

/-- Number of `VIDEO_DATA_ACK` sends in a trace. -/
def countAcks (tr : List Action) : Nat :=
  tr.countP fun a => decide (a = .send videoDataAckBytes)

/-! ## Properties of the reassembly routine -/

theorem dropStream_zero (st : SockState) (hw : WfSock st) : dropStream 0 st = st := by
  cases st with
  | nil => rfl
  | cons s rest =>
    have hs : s ≠ [] := hw s (by simp)
    have hl : ¬ s.length ≤ 0 := by
      simp only [← List.length_pos] at hs
      omega
    simp [dropStream, hl]

theorem receiveSizeGo_ge (size : Nat) (acc : List Nat) (st : SockState)
    (h : size ≤ acc.length) : receiveSizeGo size acc st = some (acc, st) := by
  rw [receiveSizeGo, dif_neg (by omega)]

/-- Exact characterization of the accumulation loop on a well-formed stream:
it delivers the next `size - acc.length` bytes of the stream when they
exist, and fails (discarding the accumulator) when the stream is exhausted
first. -/
theorem receiveSizeGo_eq (n : Nat) : ∀ (size : Nat) (acc : List Nat) (st : SockState),
    size - acc.length ≤ n → WfSock st →
    receiveSizeGo size acc st =
      if size ≤ acc.length + st.flatten.length then
        some (acc ++ st.flatten.take (size - acc.length), dropStream (size - acc.length) st)
      else none := by
  induction n with
  | zero =>
    intro size acc st hn hw
    rw [receiveSizeGo_ge size acc st (by omega)]
    rw [if_pos (by omega), show size - acc.length = 0 by omega, List.take_zero,
      List.append_nil, dropStream_zero st hw]
  | succ n ih =>
    intro size acc st hn hw
    by_cases hlt : acc.length < size
    · rw [receiveSizeGo, dif_pos hlt]
      cases st with
      | nil =>
        simp only [recv]
        rw [dif_pos trivial, if_neg (by simp; omega)]
      | cons s rest =>
        have hs : s ≠ [] := hw s (by simp)
        have hs1 : 0 < s.length := List.length_pos.mpr hs
        have hwrest : WfSock rest := fun x hx => hw x (List.mem_cons_of_mem _ hx)
        by_cases hsl : s.length ≤ size - acc.length
        · simp only [recv, if_pos hsl]
          rw [dif_neg hs]
          rw [ih size (acc ++ s) rest (by simp only [List.length_append]; omega) hwrest]
          have htake : ((s :: rest).flatten).take (size - acc.length) =
              s ++ rest.flatten.take (size - acc.length - s.length) := by
            rw [List.flatten_cons, List.take_append_eq_append_take,
              List.take_of_length_le hsl]
          rw [htake, show dropStream (size - acc.length) (s :: rest) =
              dropStream (size - acc.length - s.length) rest by simp [dropStream, hsl]]
          simp only [List.flatten_cons, List.length_append, List.append_assoc,
            Nat.sub_sub]
          exact if_congr (by omega) rfl rfl
        · simp only [recv, if_neg hsl]
          have htk : s.take (size - acc.length) ≠ [] := by
            simp only [← List.length_pos, List.length_take]
            omega
          rw [dif_neg htk]
          rw [receiveSizeGo_ge size _ _
            (by simp only [List.length_append, List.length_take]; omega)]
          rw [if_pos (by simp only [List.flatten_cons, List.length_append]; omega)]
          have htake : ((s :: rest).flatten).take (size - acc.length) =
              s.take (size - acc.length) := by
            rw [List.flatten_cons, List.take_append_eq_append_take,
              Nat.sub_eq_zero_of_le (show size - acc.length ≤ s.length by omega),
              List.take_zero, List.append_nil]
          rw [htake, show dropStream (size - acc.length) (s :: rest) =
              s.drop (size - acc.length) :: rest by simp [dropStream, hsl]]
    · rw [receiveSizeGo_ge size acc st (by omega)]
      rw [if_pos (by omega), show size - acc.length = 0 by omega, List.take_zero,
        List.append_nil, dropStream_zero st hw]

/-- `receive_size` on a well-formed inbound stream: the first `size` bytes
(and the stream remainder) when the stream supplies at least `size` bytes,
`ConnectionError` otherwise. -/
theorem receive_size_eq (size : Nat) (st : SockState) (hw : WfSock st) :
    receive_size size st =
      if size ≤ st.flatten.length then
        some (st.flatten.take size, dropStream size st)
      else none := by
  simpa [receive_size] using
    receiveSizeGo_eq size size [] st (by simp) hw

theorem dropStream_append (segs rest : SockState) (hw : WfSock segs)
    (hwr : WfSock rest) : dropStream segs.flatten.length (segs ++ rest) = rest := by
  induction segs with
  | nil => simpa using dropStream_zero rest hwr
  | cons s ss ih =>
    have hwss : WfSock ss := fun x hx => hw x (List.mem_cons_of_mem _ hx)
    simp only [List.flatten_cons, List.length_append, List.cons_append, dropStream,
      Nat.le_add_right, if_pos, Nat.add_sub_cancel_left]
    exact ih hwss

/-- Consuming exactly the bytes of the segmentation `segs` leaves exactly
the remainder stream `rest`. -/
theorem receive_size_segs (segs rest : SockState) (hw : WfSock segs)
    (hwr : WfSock rest) :
    receive_size segs.flatten.length (segs ++ rest) = some (segs.flatten, rest) := by
  have hwa : WfSock (segs ++ rest) := by
    intro x hx
    rcases List.mem_append.mp hx with h | h
    · exact hw x h
    · exact hwr x h
  rw [receive_size_eq _ _ hwa, if_pos (by simp)]
  rw [List.flatten_append, List.take_append_eq_append_take, List.take_length,
    Nat.sub_self, List.take_zero, List.append_nil, dropStream_append segs rest hw hwr]

/-! ## Properties of the streaming loop -/

/-- A fully delivered `VIDEO_DATA` message: the 128-byte header arrives as
one chunk, the declared payload arrives in arbitrary nonempty chunks; the
loop body consumes it all and answers `emit` then ack. -/
theorem step_videoData (hdr : List Nat) (n : Nat) (segs rest : SockState)
    (hh : isVideoHeader hdr n) (hn : segs.flatten.length = n)
    (hw : WfSock segs) (hwr : WfSock rest) :
    step (hdr :: (segs ++ rest)) =
      .ok (rest, [.emit segs.flatten, .send videoDataAckBytes]) := by
  obtain ⟨hlen, htype, hsize⟩ := hh
  have hne : hdr ≠ [] := by
    simp only [← List.length_pos, hlen]
    norm_num [PACKET_SIZE]
  have hrecv : recv PACKET_SIZE (hdr :: (segs ++ rest)) = (hdr, segs ++ rest) := by
    simp [recv, hlen]
  have hpt : get_packet_type hdr = some (.known .videoData) := by
    simp [get_packet_type, hlen, PACKET_SIZE, htype, PacketType.ofVal, PacketType.val]
  have hps : get_payload_size hdr = some n := by
    simp [get_payload_size, hlen, PACKET_SIZE, hsize]
  have hrs : receive_size n (segs ++ rest) = some (segs.flatten, rest) :=
    hn ▸ receive_size_segs segs rest hw hwr
  simp [step, hrecv, hne, hpt, hps, hrs]

/-- A `VIDEO_DATA` message whose payload is cut short by peer closure: the
loop body raises `ConnectionError` before emitting or acknowledging. -/
theorem step_videoData_partial (hdr : List Nat) (n : Nat) (segs : SockState)
    (hh : isVideoHeader hdr n) (hw : WfSock segs)
    (hlt : segs.flatten.length < n) :
    step (hdr :: segs) = .error .connectionLost := by
  obtain ⟨hlen, htype, hsize⟩ := hh
  have hne : hdr ≠ [] := by
    simp only [← List.length_pos, hlen]
    norm_num [PACKET_SIZE]
  have hrecv : recv PACKET_SIZE (hdr :: segs) = (hdr, segs) := by
    simp [recv, hlen]
  have hpt : get_packet_type hdr = some (.known .videoData) := by
    simp [get_packet_type, hlen, PACKET_SIZE, htype, PacketType.ofVal, PacketType.val]
  have hps : get_payload_size hdr = some n := by
    simp [get_payload_size, hlen, PACKET_SIZE, hsize]
  have hrs : receive_size n segs = none := by
    rw [receive_size_eq n segs hw, if_neg (by omega)]
  simp [step, hrecv, hne, hpt, hps, hrs]

/-- A zero-byte read (exhausted stream, peer closed) is logged and the
iteration skipped. -/
theorem step_closed : step [] = .ok ([], [.logMsg]) := rfl

/-- Every chunk of a `VideoStream` inbound stream is nonempty. -/
theorem VideoStream.wf (ms : List (List Nat)) (st : SockState)
    (h : VideoStream ms st) : WfSock st := by
  induction h with
  | nil => intro x hx; cases hx
  | cons hdr p segs ms rest hh hj hw htl ih =>
    intro x hx
    rcases List.mem_cons.mp hx with h | h
    · subst h
      have : x.length = PACKET_SIZE := hh.1
      simp only [← List.length_pos, this]
      norm_num [PACKET_SIZE]
    · rcases List.mem_append.mp h with h | h
      · exact hw x h
      · exact ih x h

/-- On a closed (exhausted) stream, every further iteration just logs and
loops: the session never terminates, raises nothing, sends nothing. -/
theorem runLoop_closed (fuel : Nat) :
    runLoop fuel [] = (List.replicate fuel Action.logMsg, none) := by
  induction fuel with
  | zero => rfl
  | succ n ih => simp [runLoop, step_closed, ih, List.replicate_succ]

/-- Processing a stream of `k` fully delivered `VIDEO_DATA` messages
produces exactly the trace `emit p₁, ack, emit p₂, ack, …` in `k`
iterations, with no exception. -/
theorem runLoop_videoStream (ms : List (List Nat)) (st : SockState)
    (h : VideoStream ms st) :
    runLoop ms.length st =
      ((ms.map fun p => [Action.emit p, Action.send videoDataAckBytes]).flatten, none) := by
  induction h with
  | nil => rfl
  | cons hdr p segs ms rest hh hj hw htl ih =>
    have hstep : step (hdr :: (segs ++ rest)) =
        .ok (rest, [.emit p, .send videoDataAckBytes]) := by
      have := step_videoData hdr p.length segs rest hh (by rw [hj]) hw
        (VideoStream.wf ms rest htl)
      rwa [hj] at this
    simp [runLoop, hstep, ih]

/-- The ack count of the `k`-message trace is `k`. -/
theorem countAcks_trace (ms : List (List Nat)) :
    countAcks ((ms.map fun p => [Action.emit p, Action.send videoDataAckBytes]).flatten)
      = ms.length := by
  induction ms with
  | nil => rfl
  | cons p rest ih =>
    simp only [List.map_cons, List.flatten_cons, countAcks, List.countP_append]
    simp only [countAcks] at ih
    rw [ih]
    have hp : List.countP (fun a => decide (a = Action.send videoDataAckBytes))
        [Action.emit p, Action.send videoDataAckBytes] = 1 := by
      simp [List.countP_cons]
    rw [hp]
    simp only [List.length_cons]
    omega

/-! ## Byte-helper lemmas -/

theorem length_toLEBytes (w : Nat) : ∀ v, (toLEBytes w v).length = w := by
  induction w with
  | zero => intro v; rfl
  | succ n ih => intro v; simp [toLEBytes, ih]

theorem fromLEBytes_toLEBytes (v : Nat) (h : v < 2 ^ 32) :
    fromLEBytes (toLEBytes 4 v) = v := by
  simp [toLEBytes, fromLEBytes]
  omega

/-- Writing at offsets past a prefix leaves the prefix intact. -/
theorem setSlice_append_left (pre l d : List Nat) (a b : Nat)
    (ha : pre.length ≤ a) (hb : pre.length ≤ b) :
    setSlice (pre ++ l) a b d = pre ++ setSlice l (a - pre.length) (b - pre.length) d := by
  simp only [setSlice, List.take_append_eq_append_take, List.take_of_length_le ha,
    List.drop_append_eq_append_drop, List.drop_of_length_le hb, List.nil_append,
    List.append_assoc]

/-- Writing inside a zero block splits it around the written bytes. -/
theorem setSlice_replicate (m a b : Nat) (d : List Nat) (hab : a ≤ b) (hbm : b ≤ m) :
    setSlice (List.replicate m 0) a b d =
      List.replicate a 0 ++ (d ++ List.replicate (m - b) 0) := by
  simp only [setSlice, List.take_replicate, List.drop_replicate, List.append_assoc]
  rw [Nat.min_eq_left (by omega)]

/-- `ConnectionStartPacket.__init__`'s header in append normal form. -/
theorem connectionStartMsg_eq (width height quality : Nat) :
    connectionStartMsg width height quality =
      toLEBytes 4 0 ++ (toLEBytes 4 334 ++ (toLEBytes 4 4 ++ (toLEBytes 4 8 ++
      (toLEBytes 4 0 ++ (toLEBytes 4 1 ++ (toLEBytes 4 3 ++ (toLEBytes 4 2 ++
      (toLEBytes 4 quality ++ (toLEBytes 2 4 ++ (toLEBytes 2 1 ++ (toLEBytes 4 0 ++
      (toLEBytes 2 60 ++ (toLEBytes 2 4 ++ (toLEBytes 4 1 ++ (toLEBytes 4 width ++
      (List.replicate 32 0 ++ (toLEBytes 4 height ++ (List.replicate 32 0 ++
      toLEBytes 4 0)))))))))))))))))) := by
  simp only [connectionStartMsg, PACKET_SIZE, PAYLOAD_SIZE, PacketType.val,
    setSlice_append_left, setSlice_replicate, length_toLEBytes,
    List.length_append, List.length_replicate, List.append_assoc,
    Nat.reduceAdd, Nat.reduceSub, Nat.reduceLeDiff,
    List.replicate_zero, List.append_nil, List.nil_append]

theorem connectionStartMsg_length (width height quality : Nat) :
    (connectionStartMsg width height quality).length = 128 := by
  simp [connectionStartMsg_eq, length_toLEBytes]

/-! ## Properties of the identification payload -/

/-- Length evolution of the payload write loop: each 2-byte character write
preserves the 334-byte buffer while it fits, then Python's slice assignment
grows the buffer 2 bytes per character. -/
theorem payloadWrite_length (cps : List Nat) : ∀ (i : Nat) (payload : List Nat),
    (∀ c ∈ cps, c < 65536) → payload.length = max 334 (2 * i) →
    ∃ p, payloadWrite payload i cps = some p ∧
      p.length = max 334 (2 * (i + cps.length)) := by
  induction cps with
  | nil =>
    intro i payload _ hl
    exact ⟨payload, rfl, by simpa using hl⟩
  | cons c rest ih =>
    intro i payload hb hl
    have hc : c < 65536 := hb c (by simp)
    have hlen2 : (toLEBytes 2 c).length = 2 := rfl
    have hsl : (setSlice payload (i * 2) ((i + 1) * 2) (toLEBytes 2 c)).length
        = max 334 (2 * (i + 1)) := by
      simp only [setSlice, List.length_append, List.length_take, List.length_drop,
        hlen2]
      omega
    obtain ⟨p, hp, hplen⟩ := ih (i + 1) _ (fun x hx => hb x (by simp [hx])) hsl
    refine ⟨p, ?_, ?_⟩
    · simp [payloadWrite, encodeChar, hc, hp]
    · rw [hplen]
      simp only [List.length_cons]
      omega

/-- The payload of a BMP identification string: exactly 334 bytes up to 167
characters, then 2 bytes per character with no truncation. -/
theorem connectionStartPayload_length (cps : List Nat)
    (hb : ∀ c ∈ cps, c < 65536) :
    ∃ p, connectionStartPayload cps = some p ∧
      p.length = max 334 (2 * cps.length) := by
  obtain ⟨p, hp, hl⟩ := payloadWrite_length cps 0 (List.replicate 334 0) hb
    (by rw [List.length_replicate]; omega)
  exact ⟨p, hp, by omega⟩

/-- `get_bytes` is header concatenated with payload whenever the payload is
at least 334 bytes long (the slice assignment at `[128:462]` replaces the
334 trailing bytes with the whole payload). -/
theorem connectionStartGetBytes_append (width height quality : Nat) (cps : List Nat)
    (p : List Nat) (hp : connectionStartPayload cps = some p) :
    connectionStartGetBytes width height quality cps =
      some (connectionStartMsg width height quality ++ p) := by
  have hm : (connectionStartMsg width height quality).length = 128 :=
    connectionStartMsg_length width height quality
  have h1 : setSlice (List.replicate (PACKET_SIZE + PAYLOAD_SIZE) 0) 0 PACKET_SIZE
      (connectionStartMsg width height quality) =
      connectionStartMsg width height quality ++ List.replicate PAYLOAD_SIZE 0 := by
    rw [setSlice_replicate _ _ _ _ (by norm_num [PACKET_SIZE])
      (by norm_num [PACKET_SIZE, PAYLOAD_SIZE])]
    norm_num [PACKET_SIZE, PAYLOAD_SIZE]
  have h2 : setSlice
      (connectionStartMsg width height quality ++ List.replicate PAYLOAD_SIZE 0)
      PACKET_SIZE (PACKET_SIZE + PAYLOAD_SIZE) p =
      connectionStartMsg width height quality ++ p := by
    rw [setSlice_append_left _ _ _ _ _ (by rw [hm]; norm_num [PACKET_SIZE])
      (by rw [hm]; norm_num [PACKET_SIZE, PAYLOAD_SIZE])]
    rw [hm]
    norm_num [PACKET_SIZE, PAYLOAD_SIZE]
    rw [setSlice_replicate _ _ _ _ (by norm_num) (by norm_num)]
    norm_num
  rw [connectionStartGetBytes, hp]
  simp only [Option.map]
  rw [h1, h2]

/-! ## Claims -/

/-- C1 (counterexample): the header read is a single `recv(128)`, which can
return fewer than 128 bytes.  Here a PING header's first 4 bytes arrive as
their own chunk: the read returns 4 bytes and the iteration dispatches on
them anyway (echoing the 4 bytes), so type-specific interpretation happens
without 128 header bytes having been read. -/
theorem C1_counterexample :
    (headerRead [[1, 0, 0, 0]]).length = 4 ∧
    step [[1, 0, 0, 0]] = .ok ([], [.send [1, 0, 0, 0]]) ∧
    (headerRead [[1, 0, 0, 0]]).length ≠ PACKET_SIZE := by
  refine ⟨rfl, rfl, by decide⟩

/-- C1 (amended): in the Streaming receive loop the header is read by a
single `recv` requesting at most 128 bytes; it returns exactly 128 bytes
precisely when the head chunk of the inbound stream holds at least 128
bytes, and otherwise type dispatch proceeds on the shorter data. -/
theorem C1_header_read_clamped (st : SockState) :
    (headerRead st).length ≤ PACKET_SIZE ∧
    (∀ s rest, st = s :: rest → PACKET_SIZE ≤ s.length →
      (headerRead st).length = PACKET_SIZE) := by
  constructor
  · cases st with
    | nil => simp [headerRead, recv, PACKET_SIZE]
    | cons s rest =>
      by_cases hl : s.length ≤ PACKET_SIZE
      · simp [headerRead, recv, hl]
      · simp [headerRead, recv, hl, List.length_take]
  · intro s rest hst hge
    subst hst
    by_cases hl : s.length ≤ PACKET_SIZE
    · simp [headerRead, recv, hl]
      omega
    · simp [headerRead, recv, hl, List.length_take]
      omega

/-- C1 witness: a 128-byte head chunk yields a full 128-byte header read. -/
theorem C1_header_read_clamped_witness :
    (headerRead [List.replicate 128 7]).length = PACKET_SIZE :=
  (C1_header_read_clamped [List.replicate 128 7]).2 (List.replicate 128 7) []
    rfl (by decide)

/-- C2: `receive_size(socket, n)` returns exactly the first `n` stream bytes
whenever the stream supplies at least `n` bytes, however they are chunked;
if the stream is exhausted (zero-length read, peer closed) before `n` bytes
are collected it fails with `ConnectionError`, and the failure carries no
bytes: the partial accumulation is discarded, never delivered. -/
theorem C2_receive_size_exact (n : Nat) (st : SockState) (hw : WfSock st) :
    (n ≤ st.flatten.length →
      receive_size n st = some (st.flatten.take n, dropStream n st) ∧
        (st.flatten.take n).length = n) ∧
    (st.flatten.length < n → receive_size n st = none) := by
  constructor
  · intro h
    refine ⟨by rw [receive_size_eq n st hw, if_pos h], ?_⟩
    rw [List.length_take]
    omega
  · intro h
    rw [receive_size_eq n st hw, if_neg (by omega)]

/-- C2 witness: 3 bytes requested, delivered as chunks of 2 and 2: exactly
3 bytes are returned and the leftover byte stays queued. -/
theorem C2_receive_size_exact_witness :
    receive_size 3 [[1, 2], [3, 4]] = some ([1, 2, 3], [[4]]) := by
  have h := (C2_receive_size_exact 3 [[1, 2], [3, 4]] (by decide)).1 (by decide)
  exact h.1.trans (by decide)

/-- C3: if the peer closes after delivering only part of a declared
VIDEO_DATA payload, the loop body raises `ConnectionError`, which
propagates out of `run`: no chunk is emitted and no ack is sent for that
frame. -/
theorem C3_partial_close (hdr : List Nat) (n : Nat) (segs : SockState)
    (hh : isVideoHeader hdr n) (hw : WfSock segs)
    (hlt : segs.flatten.length < n) :
    step (hdr :: segs) = .error .connectionLost ∧
    ∀ fuel, runLoop (fuel + 1) (hdr :: segs) = ([], some .connectionLost) := by
  have hs := step_videoData_partial hdr n segs hh hw hlt
  exact ⟨hs, fun fuel => by simp [runLoop, hs]⟩

/-- C3 witness: the spec's own example, 400 of 1000 declared bytes then
closure: `ConnectionLost`, empty trace. -/
theorem C3_partial_close_witness :
    step ((toLEBytes 4 2 ++ toLEBytes 4 1000 ++ List.replicate 120 0) ::
      [List.replicate 400 7]) = .error .connectionLost ∧
    runLoop 1 ((toLEBytes 4 2 ++ toLEBytes 4 1000 ++ List.replicate 120 0) ::
      [List.replicate 400 7]) = ([], some .connectionLost) := by
  have h := C3_partial_close
    (toLEBytes 4 2 ++ toLEBytes 4 1000 ++ List.replicate 120 0) 1000
    [List.replicate 400 7] (by decide) (by decide) (by decide)
  exact ⟨h.1, h.2 0⟩

/-- C4: a sequence of `k` fully delivered VIDEO_DATA messages yields the
trace `emit p₁, ack, emit p₂, ack, …`: exactly `k` acks, each strictly
after its payload has been fully consumed from the stream and emitted. -/
theorem C4_video_acks (ms : List (List Nat)) (st : SockState)
    (h : VideoStream ms st) :
    runLoop ms.length st =
      ((ms.map fun p => [Action.emit p, Action.send videoDataAckBytes]).flatten, none) ∧
    countAcks ((ms.map fun p => [Action.emit p, Action.send videoDataAckBytes]).flatten)
      = ms.length :=
  ⟨runLoop_videoStream ms st h, countAcks_trace ms⟩

/-- C4 witness: one VIDEO_DATA message of 2 bytes delivered in two chunks:
one emit followed by one ack. -/
theorem C4_video_acks_witness :
    runLoop 1 [toLEBytes 4 2 ++ toLEBytes 4 2 ++ List.replicate 120 0, [5], [6]] =
      ([.emit [5, 6], .send videoDataAckBytes], none) ∧
    countAcks [.emit [5, 6], .send videoDataAckBytes] = 1 := by
  have h := C4_video_acks [[5, 6]]
    [toLEBytes 4 2 ++ toLEBytes 4 2 ++ List.replicate 120 0, [5], [6]]
    (VideoStream.cons (toLEBytes 4 2 ++ toLEBytes 4 2 ++ List.replicate 120 0)
      [5, 6] [[5], [6]] [] [] (by decide) (by decide) (by decide) VideoStream.nil)
  exact ⟨h.1, h.2⟩

/-- C5 (counterexample): on a zero-byte header read (peer closed) the code
logs an error and `continue`s: the very next iterations keep running (three
log-only iterations here), and no `ConnectionLost` is raised — contradicting
the claimed transition to a terminal Closed state. -/
theorem C5_counterexample :
    step [] = .ok ([], [.logMsg]) ∧
    runLoop 3 [] = ([.logMsg, .logMsg, .logMsg], none) ∧
    step [] ≠ .error .connectionLost := by
  refine ⟨rfl, rfl, ?_⟩
  simp [step_closed]

/-- C5 (amended): a zero-byte read where a header was expected is logged as
an error and the iteration is skipped; the loop keeps attempting further
receive iterations indefinitely (no terminal state, no `ConnectionLost`). -/
theorem C5_zero_read_logs_and_continues (fuel : Nat) :
    step [] = .ok ([], [.logMsg]) ∧
    runLoop fuel [] = (List.replicate fuel .logMsg, none) :=
  ⟨step_closed, runLoop_closed fuel⟩

/-- C6: header parsing (type plus payload size) fails exactly when fewer
than 8 bytes are supplied; with at least 8 bytes it succeeds, and an
unrecognized type value is returned verbatim as a raw integer. -/
theorem C6_parseHeader_spec (data : List Nat) :
    (parseHeader data = none ↔ data.length < 8) ∧
    (8 ≤ data.length → ∃ r, parseHeader data = some r) ∧
    (∀ v, 8 ≤ data.length → fromLEBytes (data.take 4) = v →
      PacketType.ofVal v = none →
      parseHeader data = some (.raw v, fromLEBytes ((data.drop 4).take 4))) := by
  by_cases h8 : data.length < 8
  · have hnone : parseHeader data = none := by
      rcases hpt : get_packet_type data with _ | t
      · simp [parseHeader, hpt]
      · simp [parseHeader, hpt, get_payload_size, h8]
    exact ⟨⟨fun _ => h8, fun _ => hnone⟩, fun hc => absurd hc (by omega),
      fun v hc => absurd hc (by omega)⟩
  · have h4 : ¬ data.length < 4 := by omega
    have hps : get_payload_size data = some (fromLEBytes ((data.drop 4).take 4)) := by
      simp [get_payload_size, h8]
    rcases hv : PacketType.ofVal (fromLEBytes (data.take 4)) with _ | t
    · have hpt : get_packet_type data = some (.raw (fromLEBytes (data.take 4))) := by
        simp [get_packet_type, h4, hv]
      have hph : parseHeader data =
          some (.raw (fromLEBytes (data.take 4)), fromLEBytes ((data.drop 4).take 4)) := by
        simp [parseHeader, hpt, hps]
      refine ⟨⟨fun hn => ?_, fun hc => absurd hc h8⟩, fun _ => ⟨_, hph⟩, ?_⟩
      · rw [hph] at hn
        cases hn
      · intro v _ hveq _
        subst hveq
        exact hph
    · have hpt : get_packet_type data = some (.known t) := by
        simp [get_packet_type, h4, hv]
      have hph : parseHeader data =
          some (.known t, fromLEBytes ((data.drop 4).take 4)) := by
        simp [parseHeader, hpt, hps]
      refine ⟨⟨fun hn => ?_, fun hc => absurd hc h8⟩, fun _ => ⟨_, hph⟩, ?_⟩
      · rw [hph] at hn
        cases hn
      · intro v _ hveq hvnone
        rw [hveq, hvnone] at hv
        cases hv

/-- C6 witness: 8 bytes with unknown type 99 parse to the verbatim raw
value and payload size 5. -/
theorem C6_parseHeader_spec_witness :
    parseHeader [99, 0, 0, 0, 5, 0, 0, 0] = some (.raw 99, 5) := by
  have h := (C6_parseHeader_spec [99, 0, 0, 0, 5, 0, 0, 0]).2.2 99
    (by decide) (by decide) (by decide)
  exact h.trans (by decide)

/-- C7 (counterexample): a 150-character hostname gives a 185-character
identification string, and Python's slice assignment grows the 334-byte
payload to 370 bytes — it is neither 334 bytes nor truncated. -/
theorem C7_counterexample :
    (connectionStartPayload (identificationCodepoints (List.replicate 32 97)
      (List.replicate 150 97))).map List.length = some 370 ∧
    (connectionStartPayload (identificationCodepoints (List.replicate 32 97)
      (List.replicate 150 97))).map List.length ≠ some 334 := by
  have hlen : (identificationCodepoints (List.replicate 32 97)
      (List.replicate 150 97)).length = 185 := by decide
  obtain ⟨p, hp, hl⟩ := connectionStartPayload_length
    (identificationCodepoints (List.replicate 32 97) (List.replicate 150 97))
    (by decide)
  have h370 : (connectionStartPayload (identificationCodepoints (List.replicate 32 97)
      (List.replicate 150 97))).map List.length = some 370 := by
    rw [hp]
    simp only [Option.map]
    rw [hl, hlen]
    norm_num
  refine ⟨h370, ?_⟩
  rw [h370]
  simp

/-- C7 (amended): for every hostname (BMP characters, with the 32-hex-digit
UUID prefix) the encoded identification payload is exactly 334 bytes when
the identification string holds at most 167 characters, i.e. hostnames up
to 132 characters; a longer hostname is not truncated: slice assignment
grows the payload to exactly 2 bytes per character, without a crash. -/
theorem C7_payload_growth (uuidHex hostname : List Nat)
    (hu : uuidHex.length = 32)
    (hb1 : ∀ c ∈ uuidHex, c < 65536) (hb2 : ∀ c ∈ hostname, c < 65536) :
    ∃ p, connectionStartPayload (identificationCodepoints uuidHex hostname) = some p ∧
      p.length = max 334 (2 * (35 + hostname.length)) := by
  have hb : ∀ c ∈ identificationCodepoints uuidHex hostname, c < 65536 := by
    intro c hc
    simp only [identificationCodepoints, List.mem_cons, List.mem_append] at hc
    rcases hc with h | h | h | h | h
    · omega
    · exact hb1 c h
    · omega
    · omega
    · exact hb2 c h
  obtain ⟨p, hp, hl⟩ := connectionStartPayload_length _ hb
  refine ⟨p, hp, ?_⟩
  rw [hl]
  have hlen : (identificationCodepoints uuidHex hostname).length
      = 35 + hostname.length := by
    simp [identificationCodepoints, hu]
    omega
  rw [hlen]

/-- C7 witness: a 2-character hostname fits and yields the fixed 334-byte
payload. -/
theorem C7_payload_growth_witness :
    ∃ p, connectionStartPayload (identificationCodepoints (List.replicate 32 48)
      [104, 105]) = some p ∧ p.length = 334 := by
  obtain ⟨p, hp, hl⟩ := C7_payload_growth (List.replicate 32 48) [104, 105]
    (by decide) (by decide) (by decide)
  exact ⟨p, hp, hl.trans (by norm_num)⟩

/-- C8 (counterexample): the built CONNECTION_START header is not zero on
all bytes outside the claim's field list: byte 38 holds 1 and byte 46
holds 4 (two 2-byte constant fields the claim omits). -/
theorem C8_counterexample :
    (connectionStartMsg 1920 1080 100).getD 38 0 = 1 ∧
    (connectionStartMsg 1920 1080 100).getD 46 0 = 4 ∧
    (connectionStartMsg 1920 1080 100).getD 38 0 ≠ 0 := by
  refine ⟨?_, ?_, ?_⟩ <;> rw [connectionStartMsg_eq] <;> decide

/-- C8 (amended): for quality in `[1,100]` and width, height in
`[1, 2^32)`, with an identification string of at most 167 BMP characters,
the built CONNECTION_START packet is the 128-byte header followed by the
334-byte payload (462 bytes in all), carrying: type 0 at 0–4, payload size
334 at 4–8, constants 4,8,0,1,3,2 at 8–32, quality at 32–36, compression
code 4 at 36–38, the constant 1 at 38–40, zero at 40–44, framerate 60 at
44–46, the constant 4 at 46–48, OS hint 1 at 48–52, width at 52–56, height
at 88–92, license 0 at 124–128, and zeros on 56–88 and 92–124. -/
theorem C8_connection_start_layout (width height quality : Nat) (cps : List Nat)
    (hq1 : 1 ≤ quality) (hq2 : quality ≤ 100)
    (hw0 : 0 < width) (hwb : width < 2 ^ 32)
    (hh0 : 0 < height) (hhb : height < 2 ^ 32)
    (hlen : cps.length ≤ 167) (hbmp : ∀ c ∈ cps, c < 65536) :
    ∃ p, connectionStartPayload cps = some p ∧ p.length = 334 ∧
      connectionStartGetBytes width height quality cps =
        some (connectionStartMsg width height quality ++ p) ∧
      (connectionStartMsg width height quality).length = 128 ∧
      field (connectionStartMsg width height quality) 0 4 = 0 ∧
      field (connectionStartMsg width height quality) 4 4 = 334 ∧
      field (connectionStartMsg width height quality) 8 4 = 4 ∧
      field (connectionStartMsg width height quality) 12 4 = 8 ∧
      field (connectionStartMsg width height quality) 16 4 = 0 ∧
      field (connectionStartMsg width height quality) 20 4 = 1 ∧
      field (connectionStartMsg width height quality) 24 4 = 3 ∧
      field (connectionStartMsg width height quality) 28 4 = 2 ∧
      field (connectionStartMsg width height quality) 32 4 = quality ∧
      field (connectionStartMsg width height quality) 36 2 = 4 ∧
      field (connectionStartMsg width height quality) 38 2 = 1 ∧
      field (connectionStartMsg width height quality) 40 4 = 0 ∧
      field (connectionStartMsg width height quality) 44 2 = 60 ∧
      field (connectionStartMsg width height quality) 46 2 = 4 ∧
      field (connectionStartMsg width height quality) 48 4 = 1 ∧
      field (connectionStartMsg width height quality) 52 4 = width ∧
      field (connectionStartMsg width height quality) 88 4 = height ∧
      field (connectionStartMsg width height quality) 124 4 = 0 ∧
      ((connectionStartMsg width height quality).drop 56).take 32 =
        List.replicate 32 0 ∧
      ((connectionStartMsg width height quality).drop 92).take 32 =
        List.replicate 32 0 := by
  obtain ⟨p, hp, hl⟩ := connectionStartPayload_length cps hbmp
  have hp334 : p.length = 334 := by omega
  have hq : field (connectionStartMsg width height quality) 32 4 =
      fromLEBytes (toLEBytes 4 quality) := by
    rw [connectionStartMsg_eq]
    rfl
  have hwf : field (connectionStartMsg width height quality) 52 4 =
      fromLEBytes (toLEBytes 4 width) := by
    rw [connectionStartMsg_eq]
    rfl
  have hhf : field (connectionStartMsg width height quality) 88 4 =
      fromLEBytes (toLEBytes 4 height) := by
    rw [connectionStartMsg_eq]
    rfl
  refine ⟨p, hp, hp334,
    connectionStartGetBytes_append width height quality cps p hp,
    connectionStartMsg_length width height quality,
    ?_, ?_, ?_, ?_, ?_, ?_, ?_, ?_,
    hq.trans (fromLEBytes_toLEBytes quality (by omega)),
    ?_, ?_, ?_, ?_, ?_, ?_,
    hwf.trans (fromLEBytes_toLEBytes width hwb),
    hhf.trans (fromLEBytes_toLEBytes height hhb),
    ?_, ?_, ?_⟩ <;> rw [connectionStartMsg_eq] <;> rfl

/-- C8 witness: a 1920×1080 quality-100 session with a 37-character
identification string. -/
theorem C8_connection_start_layout_witness :
    ∃ p, connectionStartPayload (identificationCodepoints (List.replicate 32 48)
        [104, 105]) = some p ∧ p.length = 334 ∧
      connectionStartGetBytes 1920 1080 100 (identificationCodepoints
        (List.replicate 32 48) [104, 105]) =
        some (connectionStartMsg 1920 1080 100 ++ p) ∧
      field (connectionStartMsg 1920 1080 100) 32 4 = 100 ∧
      field (connectionStartMsg 1920 1080 100) 52 4 = 1920 ∧
      field (connectionStartMsg 1920 1080 100) 88 4 = 1080 := by
  obtain ⟨p, h1, h2, h3, _, _, _, _, _, _, _, _, _, hq, _, _, _, _, _, _, hw, hh,
      _, _, _⟩ :=
    C8_connection_start_layout 1920 1080 100
      (identificationCodepoints (List.replicate 32 48) [104, 105])
      (by decide) (by decide) (by decide) (by decide) (by decide) (by decide)
      (by decide) (by decide)
  exact ⟨p, h1, h2, h3, hq, hw, hh⟩

/-- C9 (counterexample): `Streamer.stop` sets the running flag to false,
logs, and sends the DISCONNECT packet — and does nothing else: in
particular it never closes the socket, contradicting the claimed
close-after-send. -/
theorem C9_counterexample :
    stopEffect true = (false, [.logMsg, .send disconnectBytes]) ∧
    Action.closeSock ∉ (stopEffect true).2 := by
  refine ⟨rfl, ?_⟩
  decide

/-- C9 (amended): calling stop clears the running flag and sends exactly
one DISCONNECT packet; it does not close the socket (no close exists on any
path of `stop`). -/
theorem C9_stop_spec (running : Bool) :
    (stopEffect running).1 = false ∧
    List.countP (fun a => decide (a = Action.send disconnectBytes))
      (stopEffect running).2 = 1 ∧
    Action.closeSock ∉ (stopEffect running).2 := by
  cases running <;> exact ⟨rfl, by decide, by decide⟩

/-- C10: `receive_size(socket, 0)` returns the empty byte string at once,
reading nothing and leaving the stream untouched; consequently a
VIDEO_DATA header declaring payload size 0 makes the loop emit an empty
chunk and send one VIDEO_DATA_ACK. -/
theorem C10_zero_payload :
    (∀ st : SockState, receive_size 0 st = some ([], st)) ∧
    (∀ (hdr : List Nat) (rest : SockState), isVideoHeader hdr 0 →
      step (hdr :: rest) = .ok (rest, [.emit [], .send videoDataAckBytes])) := by
  have hz : ∀ st : SockState, receive_size 0 st = some ([], st) := fun st =>
    receiveSizeGo_ge 0 [] st (Nat.zero_le _)
  refine ⟨hz, ?_⟩
  intro hdr rest hh
  obtain ⟨hlen, htype, hsize⟩ := hh
  have hne : hdr ≠ [] := by
    simp only [← List.length_pos, hlen]
    norm_num [PACKET_SIZE]
  have hrecv : recv PACKET_SIZE (hdr :: rest) = (hdr, rest) := by
    simp [recv, hlen]
  have hpt : get_packet_type hdr = some (.known .videoData) := by
    simp [get_packet_type, hlen, PACKET_SIZE, htype, PacketType.ofVal, PacketType.val]
  have hps : get_payload_size hdr = some 0 := by
    simp [get_payload_size, hlen, PACKET_SIZE, hsize]
  simp [step, hrecv, hne, hpt, hps, hz]

/-- C10 witness: a VIDEO_DATA header declaring size 0, followed by an
unrelated queued chunk: empty emit, one ack, stream untouched. -/
theorem C10_zero_payload_witness :
    step ((toLEBytes 4 2 ++ toLEBytes 4 0 ++ List.replicate 120 0) :: [[9]]) =
      .ok ([[9]], [.emit [], .send videoDataAckBytes]) :=
  C10_zero_payload.2 (toLEBytes 4 2 ++ toLEBytes 4 0 ++ List.replicate 120 0)
    [[9]] (by decide)

end Spacedesk
